import Mathlib

/-!
# Verification of the cloudbreak-service-registration reconciliation engine

Shallow embedding of `src/main.go` (the newer of the two program versions in the
file, lines 384-961, which is the one carrying tags, the unknown-state guard,
deregistration and the concurrent registry read).

Modelling conventions:
* Go strings are modelled as Lean `String`s at the character level; the data the
  program manipulates (component names, states, hostnames, IP addresses, tags)
  is ASCII, where Go's byte indices coincide with character indices and Go's
  `strings.ToLower` coincides with per-character ASCII lowering.
* Go maps used only for lookup are modelled as association lists; a missing key
  yields the zero value `""`, as in Go.
* Fallible operations are modelled with `Option`/`Except`; a Go runtime panic
  (out-of-bounds slice) is modelled as `none`.
-/

/-- Constant `AMBARI_CONSUL_SERVICE_TAG = "ambari"` (line 408). -/
def AMBARI_CONSUL_SERVICE_TAG : String := "ambari"

/-- Constant `DEFAULT_SERVICE_CHECK_POLL_INTERVAL = 10 * time.Second` (line 409),
in nanoseconds (Go `time.Duration` units). -/
def DEFAULT_SERVICE_CHECK_POLL_INTERVAL : Int := 10 * 1000000000

/-- `HostComponent` (lines 475-480): one discovered component instance. -/
structure HostComponent where
  Hostname : String
  IP : String
  HostComponent : String
  State : String
deriving DecidableEq, Repr

/-- `ConsulService` (lines 482-491): a registry entry, both as written on
registration (`ID`/`Name`/`Tags`) and as read back from the catalog
(`ServiceName`/`ServiceID`/`ServiceTags`). Go zero values are `""` / `[]`. -/
structure ConsulService where
  ID : String
  Name : String
  Address : String
  Port : Int
  Tags : List String
  ServiceName : String
  ServiceID : String
  ServiceTags : List String
deriving DecidableEq, Repr

/-- Go `strings.ToLower` restricted to ASCII (all data compared by the program
is ASCII): per-character lowering. -/
def goToLower (s : String) : String :=
  String.mk (s.toList.map Char.toLower)

/-- Character-level model of Go `strings.Replace(s, old, new, -1)` for
one-character `old`/`new`: replace every occurrence. -/
def goReplaceAllChar : List Char → Char → Char → List Char
  | [], _, _ => []
  | c :: rest, old, new =>
    (if c = old then new else c) :: goReplaceAllChar rest old new

/-- Character-level model of Go `strings.Replace(s, old, new, 1)` for
one-character `old`/`new`: replace only the first occurrence. -/
def goReplaceFirstChar : List Char → Char → Char → List Char
  | [], _, _ => []
  | c :: rest, old, new =>
    if c = old then new :: rest else c :: goReplaceFirstChar rest old new

/-- Go `strings.Replace(s, "_", "-", -1)` on strings. -/
def goReplaceAll (s : String) (old new : Char) : String :=
  String.mk (goReplaceAllChar s.toList old new)

/-- Go `strings.Replace(s, "_", "-", 1)` on strings. -/
def goReplaceFirst (s : String) (old new : Char) : String :=
  String.mk (goReplaceFirstChar s.toList old new)

/-- `getDnsReadyComponentName` (lines 958-960):
`strings.Replace(strings.ToLower(componentName), "_", "-", -1)`. -/
def getDnsReadyComponentName (componentName : String) : String :=
  goReplaceAll (goToLower componentName) '_' '-'

/-- The match condition of the inner loop of `getNewComponents` (lines 861-862):
`service.ServiceName == componentName && service.Address == component.IP &&
(len(service.ServiceTags) > 0 && service.ServiceTags[0] == state)`.
The guarded index access is rendered as a `match` on the tag list. -/
def serviceMatches (componentName state : String) (component : HostComponent)
    (service : ConsulService) : Bool :=
  service.ServiceName == componentName && service.Address == component.IP &&
    (match service.ServiceTags with
     | t :: _ => t == state
     | [] => false)

/-- `getNewComponents` (lines 853-876). The Go loop appends kept components in
input order; this structural recursion produces the same list. -/
def getNewComponents : List HostComponent → List ConsulService → List HostComponent
  | [], _ => []
  | component :: rest, consulServices =>
    let state := goToLower component.State
    let componentName := getDnsReadyComponentName component.HostComponent
    if state ≠ "unknown" then
      let registered := consulServices.any (serviceMatches componentName state component)
      if registered then getNewComponents rest consulServices
      else component :: getNewComponents rest consulServices
    else getNewComponents rest consulServices

/-- `isAmbariService` (lines 949-956): some `ServiceTags` element equals the
ownership tag. -/
def isAmbariService (service : ConsulService) : Bool :=
  service.ServiceTags.any (fun t => t == AMBARI_CONSUL_SERVICE_TAG)

/-- The `active` inner loop of `getRemovedServices` (lines 883-888): some
discovered component has the entry's serviceName and address. -/
def isActive (components : List HostComponent) (service : ConsulService) : Bool :=
  components.any (fun component =>
    service.ServiceName == getDnsReadyComponentName component.HostComponent &&
      service.Address == component.IP)

/-- `getRemovedServices` (lines 878-895). The Go loop appends kept entries in
registry order; this structural recursion produces the same list. -/
def getRemovedServices (components : List HostComponent) :
    List ConsulService → List ConsulService
  | [] => []
  | service :: rest =>
    if isAmbariService service then
      if isActive components service then getRemovedServices components rest
      else service :: getRemovedServices components rest
    else getRemovedServices components rest

/-- Character-level model of Go `strings.Index(s, sub)` for the one-character
pattern used at line 904 (`strings.Index(component.Hostname, ".")`): index of
the first occurrence, `-1` if absent. -/
def goIndexChar : List Char → Char → Int
  | [], _ => -1
  | x :: rest, c =>
    if x = c then 0
    else if goIndexChar rest c = -1 then -1 else goIndexChar rest c + 1

/-- Models `component.Hostname[0:strings.Index(component.Hostname, ".")]`
(line 904). Go panics when the slice bound is negative, i.e. when the hostname
has no `"."`; the panic is modelled as `none`. -/
def goSliceToDot (hostname : String) : Option String :=
  let i := goIndexChar hostname.toList '.'
  if i < 0 then none
  else some (String.mk (hostname.toList.take i.toNat))

/-- The entry built by one task of `registerToConsul` (lines 903-912):
`id = componentName + "." + strings.Replace(shortHostname, "_", "-", 1)`, a
`ConsulService` literal with `Port: 1080` and
`Tags: []string{strings.ToLower(component.State), AMBARI_CONSUL_SERVICE_TAG}`;
the remaining fields keep their Go zero values. -/
def buildConsulService (component : HostComponent) : Option ConsulService :=
  let componentName := getDnsReadyComponentName component.HostComponent
  match goSliceToDot component.Hostname with
  | none => none
  | some shortHostname =>
    let id := componentName ++ "." ++ goReplaceFirst shortHostname '_' '-'
    some { ID := id
           Name := componentName
           Address := component.IP
           Port := 1080
           Tags := [goToLower component.State, AMBARI_CONSUL_SERVICE_TAG]
           ServiceName := ""
           ServiceID := ""
           ServiceTags := [] }

/-- The registration identifier as the spec words it (refinement reference for
comparison with `buildConsulService`): serviceName, then `"."`, then the
hostname substring before the first `"."` with underscores (all of them)
replaced by hyphens. -/
def specRegistrationId (component : HostComponent) : Option String :=
  (goSliceToDot component.Hostname).map (fun short =>
    getDnsReadyComponentName component.HostComponent ++ "." ++ goReplaceAll short '_' '-')

/-- Go `'0' <= c && c <= '9'` digit test used by `time.ParseDuration`. -/
def isGoDigit (c : Char) : Bool := '0' ≤ c && c ≤ '9'

/-- Model of Go stdlib `leadingInt` (called by `time.ParseDuration`): consume
leading decimal digits into a `uint64`, failing on overflow exactly when Go
does (`x > 1<<63/10` before the multiply, `x > 1<<63` after). -/
def leadingIntGo (x : Nat) : List Char → Option (Nat × List Char)
  | [] => some (x, [])
  | c :: rest =>
    if isGoDigit c then
      if x > 2 ^ 63 / 10 then none
      else
        let y := x * 10 + (c.toNat - '0'.toNat)
        if y > 2 ^ 63 then none else leadingIntGo y rest
    else some (x, c :: rest)

/-- Model of Go stdlib `leadingFraction`: consume digits after the decimal
point, tracking the scale and silently stopping accumulation on overflow, as
Go does. (Go tracks the scale in a `float64`; the scale stays below `10^20`
here, and no theorem below depends on fractional values.) -/
def leadingFractionGo (x scale : Nat) (overflow : Bool) :
    List Char → Nat × Nat × List Char
  | [] => (x, scale, [])
  | c :: rest =>
    if isGoDigit c then
      if overflow then leadingFractionGo x scale overflow rest
      else if x > (2 ^ 63 - 1) / 10 then leadingFractionGo x scale true rest
      else
        let y := x * 10 + (c.toNat - '0'.toNat)
        if y > 2 ^ 63 then leadingFractionGo x scale true rest
        else leadingFractionGo y (scale * 10) false rest
    else (x, scale, c :: rest)

/-- Model of Go stdlib `unitMap` for `time.ParseDuration`: nanoseconds per
unit. -/
def unitMapGo (u : List Char) : Option Nat :=
  if u = "ns".toList then some 1
  else if u = "us".toList then some 1000
  else if u = "µs".toList then some 1000
  else if u = "μs".toList then some 1000
  else if u = "ms".toList then some 1000000
  else if u = "s".toList then some 1000000000
  else if u = "m".toList then some 60000000000
  else if u = "h".toList then some 3600000000000
  else none

/-- The main loop of Go stdlib `time.ParseDuration`, one iteration per
`[0-9]*(\.[0-9]*)?unit` group. Each iteration consumes at least one character,
so fuel `s.length + 1` suffices; `fuel = 0` is unreachable. The fractional
contribution `uint64(float64(f) * (float64(unit) / scale))` is computed with
exact integer arithmetic (`f * unit / scale`); this can differ from Go's
float64 rounding only in the low nanoseconds of a successfully parsed value,
never in whether parsing succeeds. -/
def parseDurationIter : Nat → Nat → List Char → Option Nat
  | 0, _, _ => none
  | _, d, [] => some d
  | fuel + 1, d, c :: rest =>
    if ¬ (c = '.' ∨ isGoDigit c) then none
    else
      match leadingIntGo 0 (c :: rest) with
      | none => none
      | some (v, s1) =>
        let pre := s1.length ≠ (c :: rest).length
        let fp : Nat × Nat × List Char × Bool :=
          match s1 with
          | '.' :: s1tail =>
            let r := leadingFractionGo 0 1 false s1tail
            (r.1, r.2.1, r.2.2, r.2.2.length ≠ s1tail.length)
          | _ => (0, 1, s1, false)
        let f := fp.1
        let scale := fp.2.1
        let s2 := fp.2.2.1
        let post := fp.2.2.2
        if ¬ pre ∧ ¬ post then none
        else
          let u := s2.takeWhile (fun ch => ¬ (ch = '.' ∨ isGoDigit ch))
          let s3 := s2.drop u.length
          if u.length = 0 then none
          else
            match unitMapGo u with
            | none => none
            | some unit =>
              if v > 2 ^ 63 / unit then none
              else
                let v2 := v * unit
                let v3 : Option Nat :=
                  if f > 0 then
                    let w := v2 + f * unit / scale
                    if w > 2 ^ 63 then none else some w
                  else some v2
                match v3 with
                | none => none
                | some w =>
                  if d + w > 2 ^ 63 then none
                  else parseDurationIter fuel (d + w) s3

/-- Model of Go stdlib `time.ParseDuration`: result in nanoseconds
(`time.Duration`), `none` on a parse error (Go returns `(0, err)`). -/
def goParseDuration (str : String) : Option Int :=
  let s := str.toList
  let signed : Bool × List Char :=
    match s with
    | c :: rest => if c = '-' ∨ c = '+' then (c = '-', rest) else (false, s)
    | [] => (false, s)
  let neg := signed.1
  let s1 := signed.2
  if s1 = ['0'] then some 0
  else if s1 = [] then none
  else
    match parseDurationIter (s1.length + 1) 0 s1 with
    | none => none
    | some d =>
      if neg then some (-(Int.ofNat d))
      else if d > 2 ^ 63 - 1 then none
      else some (Int.ofNat d)

/-- `wait` (lines 575-586): the duration handed to `time.Sleep`, in
nanoseconds. When the poll-interval environment variable is non-empty the code
runs `s, _ := time.ParseDuration(sleepEnv); sleep = s`, discarding the error:
on a parse failure Go's `ParseDuration` returns `0`, so `sleep` is `0`. The
default is used only when the variable is empty. -/
def waitSleepDuration (sleepEnv : String) : Int :=
  if sleepEnv.length > 0 then
    match goParseDuration sleepEnv with
    | some s => s
    | none => 0
  else DEFAULT_SERVICE_CHECK_POLL_INTERVAL

/-- One decoded `HostRoles` object of the cluster host-components response
(lines 450-457). -/
structure HostRole where
  ComponentName : String
  Hostname : String
  State : String
  Maintenance : String
deriving DecidableEq, Repr

/-- One decoded item of `HostComponentsResponse` (lines 445-459): the host name
and its `host_components` list. -/
structure HostComponentsItem where
  HostName : String
  HostComponents : List HostRole
deriving DecidableEq, Repr

/-- Go map read `hosts[hostName]`: the zero value `""` when the key is
absent. -/
def goMapLookup (hosts : List (String × String)) (key : String) : String :=
  match hosts.find? (fun p => p.1 == key) with
  | some p => p.2
  | none => ""

/-- The mapping loop of `getHostComponents` (lines 731-748): for each response
item and each of its host components, read the lifecycle state, override it
with `"maintenance"` when the maintenance flag is `"ON"` or
`"IMPLIED_FROM_SERVICE"`, and emit a `HostComponent` with the host's IP from
the host inventory. (The surrounding HTTP fetch and JSON decode return an
error before this loop; the loop itself is pure.) -/
def mapHostComponents (hosts : List (String × String)) :
    List HostComponentsItem → List HostComponent
  | [] => []
  | item :: rest =>
    let ip := goMapLookup hosts item.HostName
    (item.HostComponents.map (fun component =>
      let state :=
        if component.Maintenance = "ON" ∨ component.Maintenance = "IMPLIED_FROM_SERVICE"
        then "maintenance" else component.State
      { HostComponent := component.ComponentName
        Hostname := item.HostName
        IP := ip
        State := state : HostComponent }))
      ++ mapHostComponents hosts rest

/-- The fan-out phase of `getConsulServices` (lines 807-850), modelled
sequentially: each distinct service name from the phase-one catalog is fetched
(`fetch` stands for the HTTP GET plus JSON decode of one service; `Except.error`
covers both transport and decode failures). The goroutines stream successes
into `registered` via `serviceChannel`; after the join, the code drains
`errorChannel` and returns the first error if any goroutine failed. The order
of `registered` and the choice of error depend on scheduling; the success list
here is in catalog order, and the reported error is the first failing name's,
which is one of the admissible schedules. -/
def getConsulServices (serviceNames : List String)
    (fetch : String → Except Unit (List ConsulService)) :
    Except Unit (List ConsulService) :=
  let registered := serviceNames.foldl (fun acc name =>
    match fetch name with
    | .ok ss => acc ++ ss
    | .error _ => acc) []
  let fetchErrors := serviceNames.filterMap (fun name =>
    match fetch name with
    | .error e => some e
    | .ok _ => none)
  match fetchErrors with
  | [] => .ok registered
  | e :: _ => .error e

/-! ## Helper lemmas -/

theorem serviceMatches_eq_true_iff (componentName state : String)
    (component : HostComponent) (service : ConsulService) :
    serviceMatches componentName state component service = true ↔
      service.ServiceName = componentName ∧ service.Address = component.IP ∧
        service.ServiceTags.head? = some state := by
  cases hts : service.ServiceTags with
  | nil => simp [serviceMatches, hts]
  | cons t rest => simp [serviceMatches, hts, and_assoc]

theorem mem_getNewComponents_iff (components : List HostComponent)
    (consulServices : List ConsulService) (component : HostComponent) :
    component ∈ getNewComponents components consulServices ↔
      component ∈ components ∧ goToLower component.State ≠ "unknown" ∧
        consulServices.any
          (serviceMatches (getDnsReadyComponentName component.HostComponent)
            (goToLower component.State) component) = false := by
  induction components with
  | nil => simp [getNewComponents]
  | cons head rest ih =>
    by_cases hstate : goToLower head.State = "unknown"
    · simp only [getNewComponents, hstate, ne_eq, not_true_eq_false, if_false, ih,
        List.mem_cons]
      constructor
      · rintro ⟨h1, h2, h3⟩
        exact ⟨Or.inr h1, h2, h3⟩
      · rintro ⟨h1 | h1, h2, h3⟩
        · rw [h1, hstate] at h2
          exact absurd rfl h2
        · exact ⟨h1, h2, h3⟩
    · by_cases hreg : consulServices.any
        (serviceMatches (getDnsReadyComponentName head.HostComponent)
          (goToLower head.State) head) = true
      · simp only [getNewComponents, ne_eq, hstate, not_false_eq_true, if_true, hreg, ih,
          List.mem_cons]
        constructor
        · rintro ⟨h1, h2, h3⟩
          exact ⟨Or.inr h1, h2, h3⟩
        · rintro ⟨h1 | h1, h2, h3⟩
          · rw [h1] at h3
            rw [h3] at hreg
            cases hreg
          · exact ⟨h1, h2, h3⟩
      · rw [Bool.not_eq_true] at hreg
        simp only [getNewComponents, ne_eq, hstate, not_false_eq_true, if_true, hreg,
          Bool.false_eq_true, if_false, List.mem_cons, ih]
        constructor
        · rintro (h1 | ⟨h1, h2, h3⟩)
          · rw [h1]
            exact ⟨Or.inl rfl, hstate, hreg⟩
          · exact ⟨Or.inr h1, h2, h3⟩
        · rintro ⟨h1 | h1, h2, h3⟩
          · exact Or.inl h1
          · exact Or.inr ⟨h1, h2, h3⟩

theorem isAmbariService_eq_true_iff (service : ConsulService) :
    isAmbariService service = true ↔
      AMBARI_CONSUL_SERVICE_TAG ∈ service.ServiceTags := by
  unfold isAmbariService
  rw [List.any_eq_true]
  constructor
  · rintro ⟨t, ht, heq⟩
    rw [beq_iff_eq] at heq
    rw [← heq]
    exact ht
  · intro h
    exact ⟨AMBARI_CONSUL_SERVICE_TAG, h, beq_self_eq_true _⟩

theorem isActive_eq_true_iff (components : List HostComponent)
    (service : ConsulService) :
    isActive components service = true ↔
      ∃ component, component ∈ components ∧
        service.ServiceName = getDnsReadyComponentName component.HostComponent ∧
        service.Address = component.IP := by
  simp [isActive, List.any_eq_true]

theorem mem_getRemovedServices_iff (components : List HostComponent)
    (consulServices : List ConsulService) (service : ConsulService) :
    service ∈ getRemovedServices components consulServices ↔
      service ∈ consulServices ∧ isAmbariService service = true ∧
        isActive components service = false := by
  induction consulServices with
  | nil => simp [getRemovedServices]
  | cons head rest ih =>
    by_cases hamb : isAmbariService head = true
    · by_cases hact : isActive components head = true
      · simp only [getRemovedServices, hamb, if_true, hact, ih, List.mem_cons]
        constructor
        · rintro ⟨h1, h2, h3⟩
          exact ⟨Or.inr h1, h2, h3⟩
        · rintro ⟨h1 | h1, h2, h3⟩
          · rw [h1] at h3
            rw [h3] at hact
            cases hact
          · exact ⟨h1, h2, h3⟩
      · rw [Bool.not_eq_true] at hact
        simp only [getRemovedServices, hamb, if_true, hact, Bool.false_eq_true, if_false,
          List.mem_cons, ih]
        constructor
        · rintro (h1 | ⟨h1, h2, h3⟩)
          · rw [h1]
            exact ⟨Or.inl rfl, hamb, hact⟩
          · exact ⟨Or.inr h1, h2, h3⟩
        · rintro ⟨h1 | h1, h2, h3⟩
          · exact Or.inl h1
          · exact Or.inr ⟨h1, h2, h3⟩
    · rw [Bool.not_eq_true] at hamb
      simp only [getRemovedServices, hamb, Bool.false_eq_true, if_false, ih, List.mem_cons]
      constructor
      · rintro ⟨h1, h2, h3⟩
        exact ⟨Or.inr h1, h2, h3⟩
      · rintro ⟨h1 | h1, h2, h3⟩
        · rw [h1] at h2
          rw [h2] at hamb
          cases hamb
        · exact ⟨h1, h2, h3⟩

theorem goIndexChar_total (l : List Char) (c : Char) :
    goIndexChar l c = -1 ∨ 0 ≤ goIndexChar l c := by
  induction l with
  | nil => exact Or.inl rfl
  | cons x rest ih =>
    by_cases hx : x = c
    · simp [goIndexChar, hx]
    · by_cases hr : goIndexChar rest c = -1
      · simp [goIndexChar, hx, hr]
      · rcases ih with ih | ih
        · exact absurd ih hr
        · right
          simp only [goIndexChar, hx, if_false, hr]
          omega

theorem goIndexChar_eq_neg_one_iff (l : List Char) (c : Char) :
    goIndexChar l c = -1 ↔ c ∉ l := by
  induction l with
  | nil => simp [goIndexChar]
  | cons x rest ih =>
    by_cases hx : x = c
    · simp [goIndexChar, hx]
    · by_cases hr : goIndexChar rest c = -1
      · simp only [goIndexChar, hx, if_false, hr, if_true, List.mem_cons, true_iff]
        rw [ih] at hr
        rintro (h | h)
        · exact hx h.symm
        · exact hr h
      · simp only [goIndexChar, hx, if_false, hr, List.mem_cons]
        have hge : 0 ≤ goIndexChar rest c := (goIndexChar_total rest c).resolve_left hr
        constructor
        · intro h
          omega
        · intro h
          rw [ih] at hr
          push_neg at hr
          exact absurd (Or.inr hr) h

/-! ## Claim theorems -/

/-- C1: for every list of discovered components and every registry snapshot, a
component whose lowercased state is not `"unknown"` is included by
`getNewComponents` exactly when no registry entry has the component's
normalized serviceName, the component's IP as address, and the component's
lowercased state as its first tag. -/
theorem getNewComponents_includes_iff_no_matching_entry
    (components : List HostComponent) (consulServices : List ConsulService)
    (component : HostComponent)
    (hmem : component ∈ components)
    (hstate : goToLower component.State ≠ "unknown") :
    component ∈ getNewComponents components consulServices ↔
      ¬ ∃ service, service ∈ consulServices ∧
        service.ServiceName = getDnsReadyComponentName component.HostComponent ∧
        service.Address = component.IP ∧
        service.ServiceTags.head? = some (goToLower component.State) := by
  rw [mem_getNewComponents_iff]
  constructor
  · rintro ⟨-, -, hany⟩
    rintro ⟨service, hs, h1, h2, h3⟩
    have hm := (serviceMatches_eq_true_iff
      (getDnsReadyComponentName component.HostComponent)
      (goToLower component.State) component service).mpr ⟨h1, h2, h3⟩
    have htrue : consulServices.any
        (serviceMatches (getDnsReadyComponentName component.HostComponent)
          (goToLower component.State) component) = true :=
      List.any_eq_true.mpr ⟨service, hs, hm⟩
    rw [htrue] at hany
    cases hany
  · intro hnone
    refine ⟨hmem, hstate, ?_⟩
    rw [← Bool.not_eq_true]
    intro htrue
    obtain ⟨service, hs, hm⟩ := List.any_eq_true.mp htrue
    rw [serviceMatches_eq_true_iff] at hm
    exact hnone ⟨service, hs, hm.1, hm.2.1, hm.2.2⟩

theorem getNewComponents_includes_iff_no_matching_entry_witness :
    (⟨"h1.example.com", "10.0.0.1", "NAMENODE", "STARTED"⟩ : HostComponent) ∈
        [(⟨"h1.example.com", "10.0.0.1", "NAMENODE", "STARTED"⟩ : HostComponent)] ∧
      goToLower "STARTED" ≠ "unknown" ∧
      ((⟨"h1.example.com", "10.0.0.1", "NAMENODE", "STARTED"⟩ : HostComponent) ∈
          getNewComponents
            [(⟨"h1.example.com", "10.0.0.1", "NAMENODE", "STARTED"⟩ : HostComponent)] [] ↔
        ¬ ∃ service, service ∈ ([] : List ConsulService) ∧
          service.ServiceName = getDnsReadyComponentName "NAMENODE" ∧
          service.Address = "10.0.0.1" ∧
          service.ServiceTags.head? = some (goToLower "STARTED")) :=
  ⟨by decide, by decide,
    getNewComponents_includes_iff_no_matching_entry _ _ _ (by decide) (by decide)⟩

/-- C2: `getRemovedServices` includes a registry entry exactly when it carries
the ownership tag `"ambari"` among its `ServiceTags` and no discovered
component has its serviceName (normalized) and address; entries without the
ownership tag are never included. -/
theorem getRemovedServices_mem_iff_owned_and_stale
    (components : List HostComponent) (consulServices : List ConsulService)
    (service : ConsulService) :
    service ∈ getRemovedServices components consulServices ↔
      service ∈ consulServices ∧ AMBARI_CONSUL_SERVICE_TAG ∈ service.ServiceTags ∧
        ¬ ∃ component, component ∈ components ∧
          service.ServiceName = getDnsReadyComponentName component.HostComponent ∧
          service.Address = component.IP := by
  rw [mem_getRemovedServices_iff, isAmbariService_eq_true_iff]
  constructor
  · rintro ⟨h1, h2, h3⟩
    refine ⟨h1, h2, ?_⟩
    intro hex
    rw [← isActive_eq_true_iff] at hex
    rw [h3] at hex
    cases hex
  · rintro ⟨h1, h2, h3⟩
    refine ⟨h1, h2, ?_⟩
    rw [← Bool.not_eq_true]
    intro htrue
    exact h3 ((isActive_eq_true_iff _ _).mp htrue)

/-- C3: a component whose operational state lowercases to `"unknown"` is never
included by `getNewComponents`, whatever the registry snapshot holds. -/
theorem getNewComponents_skips_unknown_state
    (components : List HostComponent) (consulServices : List ConsulService)
    (component : HostComponent)
    (hstate : goToLower component.State = "unknown") :
    component ∉ getNewComponents components consulServices := by
  rw [mem_getNewComponents_iff]
  rintro ⟨-, h2, -⟩
  exact h2 hstate

theorem getNewComponents_skips_unknown_state_witness :
    goToLower "UNKNOWN" = "unknown" ∧
      (⟨"h1.example.com", "10.0.0.1", "NAMENODE", "UNKNOWN"⟩ : HostComponent) ∉
        getNewComponents
          [(⟨"h1.example.com", "10.0.0.1", "NAMENODE", "UNKNOWN"⟩ : HostComponent)] [] :=
  ⟨by decide, getNewComponents_skips_unknown_state _ _ _ (by decide)⟩

/-- C10: a registry entry with an empty `ServiceTags` list never satisfies a
component in `getNewComponents`, even when serviceName and address match (the
first-tag access is guarded by the non-emptiness check): a non-unknown
component all of whose matching entries carry no tags is always included. -/
theorem getNewComponents_includes_when_matching_entries_untagged
    (components : List HostComponent) (consulServices : List ConsulService)
    (component : HostComponent)
    (hmem : component ∈ components)
    (hstate : goToLower component.State ≠ "unknown")
    (htags : ∀ service, service ∈ consulServices →
      service.ServiceName = getDnsReadyComponentName component.HostComponent →
      service.Address = component.IP → service.ServiceTags = []) :
    component ∈ getNewComponents components consulServices := by
  rw [mem_getNewComponents_iff]
  refine ⟨hmem, hstate, ?_⟩
  rw [← Bool.not_eq_true]
  intro htrue
  obtain ⟨service, hs, hm⟩ := List.any_eq_true.mp htrue
  rw [serviceMatches_eq_true_iff] at hm
  obtain ⟨h1, h2, h3⟩ := hm
  rw [htags service hs h1 h2] at h3
  simp at h3

theorem getNewComponents_includes_when_matching_entries_untagged_witness :
    (⟨"h1.example.com", "10.0.0.1", "NAMENODE", "STARTED"⟩ : HostComponent) ∈
        [(⟨"h1.example.com", "10.0.0.1", "NAMENODE", "STARTED"⟩ : HostComponent)] ∧
      goToLower "STARTED" ≠ "unknown" ∧
      (∀ service, service ∈
          [(⟨"x", "", "10.0.0.1", 0, [], "namenode", "", []⟩ : ConsulService)] →
        service.ServiceName = getDnsReadyComponentName "NAMENODE" →
        service.Address = "10.0.0.1" → service.ServiceTags = []) ∧
      (⟨"h1.example.com", "10.0.0.1", "NAMENODE", "STARTED"⟩ : HostComponent) ∈
        getNewComponents
          [(⟨"h1.example.com", "10.0.0.1", "NAMENODE", "STARTED"⟩ : HostComponent)]
          [(⟨"x", "", "10.0.0.1", 0, [], "namenode", "", []⟩ : ConsulService)] :=
  ⟨by decide, by decide,
    (by
      intro service hs h1 h2
      rw [List.mem_singleton] at hs
      rw [hs]),
    getNewComponents_includes_when_matching_entries_untagged _ _ _
      (by decide) (by decide)
      (by
        intro service hs h1 h2
        rw [List.mem_singleton] at hs
        rw [hs])⟩

/-- C6: the components emitted by the mapping loop of `getHostComponents` are
exactly those built from the response items, with the operational state
overridden to `"maintenance"` whenever the maintenance flag is `"ON"` or
`"IMPLIED_FROM_SERVICE"`, and the reported lifecycle state kept unchanged
otherwise. -/
theorem mapHostComponents_maintenance_override
    (hosts : List (String × String)) (items : List HostComponentsItem)
    (hc : HostComponent) :
    hc ∈ mapHostComponents hosts items ↔
      ∃ item, item ∈ items ∧ ∃ role, role ∈ item.HostComponents ∧
        hc = { HostComponent := role.ComponentName
               Hostname := item.HostName
               IP := goMapLookup hosts item.HostName
               State :=
                 if role.Maintenance = "ON" ∨ role.Maintenance = "IMPLIED_FROM_SERVICE"
                 then "maintenance" else role.State } := by
  induction items with
  | nil => simp [mapHostComponents]
  | cons item rest ih =>
    simp only [mapHostComponents, List.mem_append, List.mem_map, ih, List.mem_cons]
    constructor
    · rintro (⟨role, hrole, heq⟩ | ⟨item2, hitem2, role, hrole, heq⟩)
      · exact ⟨item, Or.inl rfl, role, hrole, heq.symm⟩
      · exact ⟨item2, Or.inr hitem2, role, hrole, heq⟩
    · rintro ⟨item2, hitem2 | hitem2, role, hrole, heq⟩
      · rw [hitem2] at hrole heq
        exact Or.inl ⟨role, hrole, heq.symm⟩
      · exact Or.inr ⟨item2, hitem2, role, hrole, heq⟩

/-- C7: every entry built by `registerToConsul` has exactly the two-element tag
list `[lowercase state, "ambari"]`, the component's IP as address, and the
fixed port `1080`. -/
theorem registerToConsul_entry_shape
    (component : HostComponent) (service : ConsulService)
    (h : buildConsulService component = some service) :
    service.Tags = [goToLower component.State, AMBARI_CONSUL_SERVICE_TAG] ∧
      service.Address = component.IP ∧ service.Port = 1080 := by
  unfold buildConsulService at h
  cases hs : goSliceToDot component.Hostname with
  | none =>
    rw [hs] at h
    cases h
  | some short =>
    rw [hs] at h
    simp only [Option.some.injEq] at h
    rw [← h]
    exact ⟨rfl, rfl, rfl⟩

theorem registerToConsul_entry_shape_witness :
    buildConsulService ⟨"h1.example.com", "10.0.0.1", "NAMENODE", "STARTED"⟩ =
        some ⟨"namenode.h1", "namenode", "10.0.0.1", 1080,
          ["started", "ambari"], "", "", []⟩ ∧
      (⟨"namenode.h1", "namenode", "10.0.0.1", 1080,
          ["started", "ambari"], "", "", []⟩ : ConsulService).Tags =
          [goToLower "STARTED", AMBARI_CONSUL_SERVICE_TAG] ∧
      (⟨"namenode.h1", "namenode", "10.0.0.1", 1080,
          ["started", "ambari"], "", "", []⟩ : ConsulService).Address = "10.0.0.1" ∧
      (⟨"namenode.h1", "namenode", "10.0.0.1", 1080,
          ["started", "ambari"], "", "", []⟩ : ConsulService).Port = 1080 :=
  ⟨by decide,
    registerToConsul_entry_shape
      ⟨"h1.example.com", "10.0.0.1", "NAMENODE", "STARTED"⟩
      ⟨"namenode.h1", "namenode", "10.0.0.1", 1080, ["started", "ambari"], "", "", []⟩
      (by decide)⟩

/-- C4 counterexample: for the hostname `"a_b_c.example.com"` the code's
registration identifier keeps the second underscore
(`strings.Replace(shortHostname, "_", "-", 1)` replaces only the first
occurrence), so it differs from the spec's identifier, in which all
underscores of the short hostname are replaced. -/
theorem registerToConsul_id_spec_mismatch :
    (buildConsulService ⟨"a_b_c.example.com", "10.0.0.1", "NAMENODE", "STARTED"⟩).map
        ConsulService.ID = some "namenode.a-b_c" ∧
      specRegistrationId ⟨"a_b_c.example.com", "10.0.0.1", "NAMENODE", "STARTED"⟩ =
        some "namenode.a-b-c" ∧
      (buildConsulService ⟨"a_b_c.example.com", "10.0.0.1", "NAMENODE", "STARTED"⟩).map
        ConsulService.ID ≠
        specRegistrationId ⟨"a_b_c.example.com", "10.0.0.1", "NAMENODE", "STARTED"⟩ := by
  decide

/-- C4 (amended): every entry built by `registerToConsul` has identifier equal
to the normalized serviceName, then `"."`, then the substring of the hostname
before the first `"."` with only the FIRST underscore of that substring
replaced by a hyphen. -/
theorem registerToConsul_id_replaces_first_underscore
    (component : HostComponent) (service : ConsulService) (short : String)
    (h : buildConsulService component = some service)
    (hshort : goSliceToDot component.Hostname = some short) :
    service.ID = getDnsReadyComponentName component.HostComponent ++ "." ++
      goReplaceFirst short '_' '-' := by
  unfold buildConsulService at h
  rw [hshort] at h
  simp only [Option.some.injEq] at h
  rw [← h]

theorem registerToConsul_id_replaces_first_underscore_witness :
    buildConsulService ⟨"a_b_c.example.com", "10.0.0.1", "NAMENODE", "STARTED"⟩ =
        some ⟨"namenode.a-b_c", "namenode", "10.0.0.1", 1080,
          ["started", "ambari"], "", "", []⟩ ∧
      goSliceToDot "a_b_c.example.com" = some "a_b_c" ∧
      (⟨"namenode.a-b_c", "namenode", "10.0.0.1", 1080,
          ["started", "ambari"], "", "", []⟩ : ConsulService).ID =
        getDnsReadyComponentName "NAMENODE" ++ "." ++ goReplaceFirst "a_b_c" '_' '-' :=
  ⟨by decide, by decide,
    registerToConsul_id_replaces_first_underscore
      ⟨"a_b_c.example.com", "10.0.0.1", "NAMENODE", "STARTED"⟩
      ⟨"namenode.a-b_c", "namenode", "10.0.0.1", 1080, ["started", "ambari"], "", "", []⟩
      "a_b_c" (by decide) (by decide)⟩

/-- C9: the slice `component.Hostname[0:strings.Index(component.Hostname, ".")]`
in `registerToConsul` is in bounds (index non-negative and at most the length)
exactly when the hostname contains a `"."`; when it does not, the index is
`-1` and the build panics (modelled: `buildConsulService` is `none`), so
containing a `"."` is a precondition on every registered component's
hostname. -/
theorem registerToConsul_hostname_dot_precondition (component : HostComponent) :
    ((0 ≤ goIndexChar component.Hostname.toList '.' ∧
        goIndexChar component.Hostname.toList '.' ≤ component.Hostname.toList.length) ↔
      '.' ∈ component.Hostname.toList) ∧
    ('.' ∉ component.Hostname.toList → goIndexChar component.Hostname.toList '.' = -1) ∧
    ((buildConsulService component).isSome ↔ '.' ∈ component.Hostname.toList) := by
  have hlen : ∀ (l : List Char), goIndexChar l '.' ≤ l.length := by
    intro l
    induction l with
    | nil => simp [goIndexChar]
    | cons x rest ih =>
      by_cases hx : x = '.'
      · simp [goIndexChar, hx]
        omega
      · by_cases hr : goIndexChar rest '.' = -1
        · simp only [goIndexChar, hx, if_false, hr, if_true, List.length_cons]
          omega
        · simp only [goIndexChar, hx, if_false, hr, List.length_cons]
          push_cast
          omega
  have hiff : 0 ≤ goIndexChar component.Hostname.toList '.' ↔
      '.' ∈ component.Hostname.toList := by
    constructor
    · intro h
      by_contra hmem
      rw [← goIndexChar_eq_neg_one_iff] at hmem
      omega
    · intro h
      rcases goIndexChar_total component.Hostname.toList '.' with htot | htot
      · rw [goIndexChar_eq_neg_one_iff] at htot
        exact absurd h htot
      · exact htot
  refine ⟨?_, ?_, ?_⟩
  · constructor
    · rintro ⟨h1, -⟩
      exact hiff.mp h1
    · intro h
      exact ⟨hiff.mpr h, hlen _⟩
  · intro h
    rw [goIndexChar_eq_neg_one_iff]
    exact h
  · unfold buildConsulService goSliceToDot
    by_cases h : goIndexChar component.Hostname.toList '.' < 0
    · simp only [h, if_true]
      simp only [Option.isSome_none, Bool.false_eq_true, false_iff]
      rw [← goIndexChar_eq_neg_one_iff]
      rcases goIndexChar_total component.Hostname.toList '.' with htot | htot
      · exact htot
      · omega
    · simp only [h, if_false]
      simp only [Option.isSome_some, true_iff]
      rw [← hiff]
      omega

/-- C5 counterexample: with the poll-interval variable set to the non-empty,
unparseable value `"bogus"`, `wait` sleeps `0` nanoseconds, not the 10-second
default the claim promises. -/
theorem wait_invalid_interval_not_default :
    "bogus".length > 0 ∧ goParseDuration "bogus" = none ∧
      waitSleepDuration "bogus" = 0 ∧
      waitSleepDuration "bogus" ≠ DEFAULT_SERVICE_CHECK_POLL_INTERVAL := by
  decide

/-- C5 (amended): for every non-empty value of the poll-interval environment
variable that is not a parseable duration, `wait` uses a zero sleep duration
(the parse error is discarded and Go's zero result is kept); the 10-second
default applies only when the variable is empty. -/
theorem wait_invalid_interval_sleeps_zero (sleepEnv : String)
    (hne : sleepEnv.length > 0) (hbad : goParseDuration sleepEnv = none) :
    waitSleepDuration sleepEnv = 0 := by
  unfold waitSleepDuration
  rw [if_pos hne, hbad]

theorem wait_invalid_interval_sleeps_zero_witness :
    "2x".length > 0 ∧ goParseDuration "2x" = none ∧ waitSleepDuration "2x" = 0 :=
  ⟨by decide, by decide,
    wait_invalid_interval_sleeps_zero "2x" (by decide) (by decide)⟩

/-- C8: if any per-service fetch of the registry read fails (transport or
decode error), `getConsulServices` returns an error and no entry list — a
partial registry view is never returned. -/
theorem getConsulServices_fails_whole_on_any_fetch_error
    (serviceNames : List String)
    (fetch : String → Except Unit (List ConsulService))
    (name : String)
    (hmem : name ∈ serviceNames) (hfail : fetch name = .error ()) :
    getConsulServices serviceNames fetch = .error () := by
  unfold getConsulServices
  have hne : () ∈ serviceNames.filterMap (fun n =>
      match fetch n with
      | .error e => some e
      | .ok _ => none) := by
    rw [List.mem_filterMap]
    refine ⟨name, hmem, ?_⟩
    rw [hfail]
  cases hcase : serviceNames.filterMap (fun n =>
      match fetch n with
      | .error e => some e
      | .ok _ => none) with
  | nil =>
    rw [hcase] at hne
    cases hne
  | cons e es =>
    cases e
    rfl

theorem getConsulServices_fails_whole_on_any_fetch_error_witness :
    "db" ∈ ["db"] ∧
      (fun _ : String => (Except.error () : Except Unit (List ConsulService))) "db" =
        .error () ∧
      getConsulServices ["db"]
        (fun _ => (Except.error () : Except Unit (List ConsulService))) = .error () :=
  ⟨by decide, rfl,
    getConsulServices_fails_whole_on_any_fetch_error ["db"]
      (fun _ => (Except.error () : Except Unit (List ConsulService))) "db"
      (by decide) rfl⟩
